import Mathlib

/-!
Shallow embedding of the fluentbit monitoring client (src/client.go).

Modelling conventions:
* Time is measured in milliseconds as natural numbers.  The ticker fires at
  150 ms, 300 ms, ...; the context deadline is a duration in milliseconds.
  Request attempts are idealised as instantaneous, so the loop performs one
  attempt per tick while ticks fit strictly within the deadline: the number
  of ticks that fire before the deadline is `deadline / 150`.
* An HTTP exchange is abstracted as an `AttemptResult`: either a
  transport-level error (`HTTPClient.Do` returned a non-nil error) or a
  response with a status code and a body.  The environment is a function
  from the attempt index to its outcome.
* Bodies are parsed JSON values (`Option Json`, with `none` denoting a body
  that is not syntactically valid JSON).  Numeric JSON values are naturals,
  since every numeric field of the target shapes is a uint64.  Decoding
  mirrors encoding/json on these shapes: a struct decodes from an object
  (or null, leaving the value untouched), unknown keys are ignored, missing
  keys keep the zero value, a type mismatch is an error.  Field names are
  matched exactly as written in the struct tags.
* `http.NewRequestWithContext` failing is abstracted as a boolean on the
  client, since URL parsing is outside the modelled core.
-/

namespace Fluentbit

/-- Parsed JSON values; numbers are naturals (all numeric target fields are
uint64). -/
inductive Json where
  | null : Json
  | bool (b : Bool) : Json
  | num (n : Nat) : Json
  | str (s : String) : Json
  | arr (elems : List Json) : Json
  | obj (fields : List (String × Json)) : Json
deriving Repr

/-- One HTTP response: status code and (parsed) body; `none` body means the
bytes were not valid JSON. -/
structure HttpResponse where
  statusCode : Nat
  body : Option Json
deriving Repr

/-- Outcome of one `c.HTTPClient.Do(req)` call. -/
inductive AttemptResult where
  | transportError : AttemptResult
  | resp (r : HttpResponse) : AttemptResult
deriving Repr

/-- The four error shapes produced by `fetchJSON` (src/client.go lines
112-139). -/
inductive FetchError where
  | requestConstructionFailed : FetchError
  | timeout (endpoint : String) : FetchError
  | requestFailed (statusCode : Nat) : FetchError
  | decodeFailed (cause : String) : FetchError
deriving Repr, DecidableEq

/-- `DefaultHTTPRetryTimeout = 3 * time.Second`, in milliseconds. -/
def DefaultHTTPRetryTimeout : Nat := 3000

/-- `DefaultHTTPRetryBackoff = 150 * time.Millisecond`, in milliseconds. -/
def DefaultHTTPRetryBackoff : Nat := 150

/-- The loop-exit condition `err == nil && resp.StatusCode != http.StatusNotFound`
(src/client.go line 125). -/
def isFinal : AttemptResult → Bool
  | .transportError => false
  | .resp r => r.statusCode != 404

/-- The response held in a final attempt. -/
def finalResponse : AttemptResult → Option HttpResponse
  | .transportError => none
  | .resp r => some r

/-- The `loop` of src/client.go lines 118-129.  `fuel` is the number of ticker
fires still fitting before the context deadline; the `select` picks the
`ctx.Done()` branch exactly when no tick remains.  Returns the number of
requests issued together with the final response (`none` on timeout). -/
def fetchLoop (attempts : Nat → AttemptResult) : Nat → Nat → Nat × Option HttpResponse
  | 0, _ => (0, none)
  | fuel + 1, k =>
      let a := attempts k
      if isFinal a then (1, finalResponse a)
      else
        let rest := fetchLoop attempts fuel (k + 1)
        (rest.1 + 1, rest.2)

/-- Look a key up in a decoded JSON object; a later duplicate key overwrites
an earlier one, as in stream decoding. -/
def lookupField (fields : List (String × Json)) (key : String) : Option Json :=
  fields.foldl (fun acc f => if f.1 = key then some f.2 else acc) none

/-- Decode a JSON value into a uint64 field. -/
def decodeUIntField (j : Json) (cur : Nat) : Nat × Option String :=
  match j with
  | .null => (cur, none)
  | .num n => (n, none)
  | _ => (cur, some "cannot unmarshal value into uint64")

/-- Decode a JSON value into a string field. -/
def decodeStrField (j : Json) (cur : String) : String × Option String :=
  match j with
  | .null => (cur, none)
  | .str s => (s, none)
  | _ => (cur, some "cannot unmarshal value into string")

/-- Decode a JSON value into a bool field. -/
def decodeBoolField (j : Json) (cur : Bool) : Bool × Option String :=
  match j with
  | .null => (cur, none)
  | .bool b => (b, none)
  | _ => (cur, some "cannot unmarshal value into bool")

/-- Decode the elements of a JSON array into a string slice. -/
def decodeStrListElems : List Json → List String × Option String
  | [] => ([], none)
  | j :: rest =>
      match j with
      | .str s =>
          let q := decodeStrListElems rest
          (s :: q.1, q.2)
      | _ => ([], some "cannot unmarshal element into string")

/-- Decode a JSON value into a []string field. -/
def decodeStrListField (j : Json) (cur : List String) : List String × Option String :=
  match j with
  | .null => (cur, none)
  | .arr xs => decodeStrListElems xs
  | _ => (cur, some "cannot unmarshal value into string slice")

/-- Sequencing step: decode the value at `key` (when present) into one field
of the struct being built, short-circuiting after an earlier error. -/
def decodeField {α β : Type} (fields : List (String × Json)) (key : String)
    (decVal : Json → β → β × Option String) (get : α → β) (set : α → β → α)
    (cur : α × Option String) : α × Option String :=
  match cur with
  | (c, some e) => (c, some e)
  | (c, none) =>
      match lookupField fields key with
      | none => (c, none)
      | some j =>
          let q := decVal j (get c)
          (set c q.1, q.2)

/-- Decode a JSON value into a struct-typed field (object or null). -/
def decodeNested {γ : Type} (decFields : List (String × Json) → γ → γ × Option String)
    (j : Json) (cur : γ) : γ × Option String :=
  match j with
  | .null => (cur, none)
  | .obj fs => decFields fs cur
  | _ => (cur, some "cannot unmarshal value into struct")

/-- Decode the entries of a JSON object into a map, each value into a fresh
zero element; association list keeps object order. -/
def decodeMapElems {β : Type} (decElem : Json → β → β × Option String) (zero : β) :
    List (String × Json) → List (String × β) × Option String
  | [] => ([], none)
  | (k, j) :: rest =>
      let p := decElem j zero
      match p.2 with
      | some e => ([(k, p.1)], some e)
      | none =>
          let q := decodeMapElems decElem zero rest
          ((k, p.1) :: q.1, q.2)

/-- Decode a JSON value into a map field (object or null; the zero map is
nil, modelled as the empty association list). -/
def decodeMapField {β : Type} (decElem : Json → β → β × Option String) (zero : β)
    (j : Json) (cur : List (String × β)) : List (String × β) × Option String :=
  match j with
  | .null => (cur, none)
  | .obj fs => decodeMapElems decElem zero fs
  | _ => (cur, some "cannot unmarshal value into map")

/-- Top level of `json.NewDecoder(resp.Body).Decode(ptr)` for a struct
target: invalid JSON is an error, null leaves the target untouched, an
object decodes field by field, anything else is a type error. -/
def decodeStruct {α : Type} (decFields : List (String × Json) → α → α × Option String) :
    Option Json → α → α × Option String
  | none, cur => (cur, some "invalid JSON input")
  | some .null, cur => (cur, none)
  | some (.obj fields), cur => decFields fields cur
  | some _, cur => (cur, some "cannot unmarshal value into struct")

/-- The anonymous struct inside `BuildInfo` (src/client.go lines 24-28). -/
structure BuildInfoFluentBit where
  Version : String := ""
  Edition : String := ""
  Flags : List String := []
deriving Repr, DecidableEq

/-- `BuildInfo` payload returned by GET / (src/client.go lines 23-29). -/
structure BuildInfo where
  FluentBit : BuildInfoFluentBit := {}
deriving Repr, DecidableEq

/-- `UpTime` payload returned by GET /api/v1/uptime (src/client.go lines
32-36). -/
structure UpTime where
  UpTimeSec : Nat := 0
  UpTimeHr : String := ""
deriving Repr, DecidableEq

/-- `MetricInput` (src/client.go lines 45-48). -/
structure MetricInput where
  Records : Nat := 0
  Bytes : Nat := 0
deriving Repr, DecidableEq

/-- `MetricOutput` (src/client.go lines 50-56). -/
structure MetricOutput where
  ProcRecords : Nat := 0
  ProcBytes : Nat := 0
  Errors : Nat := 0
  Retries : Nat := 0
  RetriesFailed : Nat := 0
deriving Repr, DecidableEq

/-- `Metrics` payload returned by GET /api/v1/metrics (src/client.go lines
40-43); Go maps are modelled as association lists (nil map = []). -/
structure Metrics where
  Input : List (String × MetricInput) := []
  Output : List (String × MetricOutput) := []
deriving Repr, DecidableEq

/-- The anonymous status struct inside `PluginStorage` (src/client.go lines
59-63). -/
structure PluginStorageStatus where
  Overlimit : Bool := false
  MemSize : String := ""
  MemLimit : String := ""
deriving Repr, DecidableEq

/-- The anonymous chunks struct inside `PluginStorage` (src/client.go lines
65-71). -/
structure PluginStorageChunks where
  Total : Nat := 0
  Up : Nat := 0
  Down : Nat := 0
  Busy : Nat := 0
  BusySize : String := ""
deriving Repr, DecidableEq

/-- `PluginStorage` (src/client.go lines 58-72). -/
structure PluginStorage where
  Status : PluginStorageStatus := {}
  Chunks : PluginStorageChunks := {}
deriving Repr, DecidableEq

/-- The anonymous chunks struct inside `StorageMetrics.StorageLayer`
(src/client.go lines 76-82). -/
structure StorageLayerChunks where
  TotalChunks : Nat := 0
  MemChunks : Nat := 0
  FsChunks : Nat := 0
  FsChunksUp : Nat := 0
  FsChunksDown : Nat := 0
deriving Repr, DecidableEq

/-- The anonymous storage-layer struct inside `StorageMetrics`
(src/client.go lines 75-83). -/
structure StorageMetricsLayer where
  Chunks : StorageLayerChunks := {}
deriving Repr, DecidableEq

/-- `StorageMetrics` payload returned by GET /api/v1/storage (src/client.go
lines 74-86). -/
structure StorageMetrics where
  StorageLayer : StorageMetricsLayer := {}
  InputChunks : List (String × PluginStorage) := []
deriving Repr, DecidableEq

/-- Field decoding for the `fluent-bit` inner struct, tags `version`,
`edition`, `flags`. -/
def decodeBuildInfoFluentBitFields (fields : List (String × Json))
    (cur : BuildInfoFluentBit) : BuildInfoFluentBit × Option String :=
  (cur, none)
  |> decodeField fields "version" decodeStrField
      (fun c => c.Version) (fun c v => { c with Version := v })
  |> decodeField fields "edition" decodeStrField
      (fun c => c.Edition) (fun c v => { c with Edition := v })
  |> decodeField fields "flags" decodeStrListField
      (fun c => c.Flags) (fun c v => { c with Flags := v })

/-- Field decoding for `BuildInfo`, tag `fluent-bit`. -/
def decodeBuildInfoFields (fields : List (String × Json)) (cur : BuildInfo) :
    BuildInfo × Option String :=
  (cur, none)
  |> decodeField fields "fluent-bit" (decodeNested decodeBuildInfoFluentBitFields)
      (fun c => c.FluentBit) (fun c v => { c with FluentBit := v })

/-- Field decoding for `UpTime`, tags `uptime_sec`, `uptime_hr`. -/
def decodeUpTimeFields (fields : List (String × Json)) (cur : UpTime) :
    UpTime × Option String :=
  (cur, none)
  |> decodeField fields "uptime_sec" decodeUIntField
      (fun c => c.UpTimeSec) (fun c v => { c with UpTimeSec := v })
  |> decodeField fields "uptime_hr" decodeStrField
      (fun c => c.UpTimeHr) (fun c v => { c with UpTimeHr := v })

/-- Field decoding for `MetricInput`, tags `records`, `bytes`. -/
def decodeMetricInputFields (fields : List (String × Json)) (cur : MetricInput) :
    MetricInput × Option String :=
  (cur, none)
  |> decodeField fields "records" decodeUIntField
      (fun c => c.Records) (fun c v => { c with Records := v })
  |> decodeField fields "bytes" decodeUIntField
      (fun c => c.Bytes) (fun c v => { c with Bytes := v })

/-- Field decoding for `MetricOutput`, tags `proc_records`, `proc_bytes`,
`errors`, `retries`, `retries_failed`. -/
def decodeMetricOutputFields (fields : List (String × Json)) (cur : MetricOutput) :
    MetricOutput × Option String :=
  (cur, none)
  |> decodeField fields "proc_records" decodeUIntField
      (fun c => c.ProcRecords) (fun c v => { c with ProcRecords := v })
  |> decodeField fields "proc_bytes" decodeUIntField
      (fun c => c.ProcBytes) (fun c v => { c with ProcBytes := v })
  |> decodeField fields "errors" decodeUIntField
      (fun c => c.Errors) (fun c v => { c with Errors := v })
  |> decodeField fields "retries" decodeUIntField
      (fun c => c.Retries) (fun c v => { c with Retries := v })
  |> decodeField fields "retries_failed" decodeUIntField
      (fun c => c.RetriesFailed) (fun c v => { c with RetriesFailed := v })

/-- Field decoding for `Metrics`, tags `input`, `output`. -/
def decodeMetricsFields (fields : List (String × Json)) (cur : Metrics) :
    Metrics × Option String :=
  (cur, none)
  |> decodeField fields "input" (decodeMapField (decodeNested decodeMetricInputFields) {})
      (fun c => c.Input) (fun c v => { c with Input := v })
  |> decodeField fields "output" (decodeMapField (decodeNested decodeMetricOutputFields) {})
      (fun c => c.Output) (fun c v => { c with Output := v })

/-- Field decoding for the plugin storage status struct, tags `overlimit`,
`mem_size`, `mem_limit`. -/
def decodePluginStorageStatusFields (fields : List (String × Json))
    (cur : PluginStorageStatus) : PluginStorageStatus × Option String :=
  (cur, none)
  |> decodeField fields "overlimit" decodeBoolField
      (fun c => c.Overlimit) (fun c v => { c with Overlimit := v })
  |> decodeField fields "mem_size" decodeStrField
      (fun c => c.MemSize) (fun c v => { c with MemSize := v })
  |> decodeField fields "mem_limit" decodeStrField
      (fun c => c.MemLimit) (fun c v => { c with MemLimit := v })

/-- Field decoding for the plugin storage chunks struct, tags `total`, `up`,
`down`, `busy`, `busy_size`. -/
def decodePluginStorageChunksFields (fields : List (String × Json))
    (cur : PluginStorageChunks) : PluginStorageChunks × Option String :=
  (cur, none)
  |> decodeField fields "total" decodeUIntField
      (fun c => c.Total) (fun c v => { c with Total := v })
  |> decodeField fields "up" decodeUIntField
      (fun c => c.Up) (fun c v => { c with Up := v })
  |> decodeField fields "down" decodeUIntField
      (fun c => c.Down) (fun c v => { c with Down := v })
  |> decodeField fields "busy" decodeUIntField
      (fun c => c.Busy) (fun c v => { c with Busy := v })
  |> decodeField fields "busy_size" decodeStrField
      (fun c => c.BusySize) (fun c v => { c with BusySize := v })

/-- Field decoding for `PluginStorage`, tags `status`, `chunks`. -/
def decodePluginStorageFields (fields : List (String × Json)) (cur : PluginStorage) :
    PluginStorage × Option String :=
  (cur, none)
  |> decodeField fields "status" (decodeNested decodePluginStorageStatusFields)
      (fun c => c.Status) (fun c v => { c with Status := v })
  |> decodeField fields "chunks" (decodeNested decodePluginStorageChunksFields)
      (fun c => c.Chunks) (fun c v => { c with Chunks := v })

/-- Field decoding for the storage-layer chunks struct, tags `total_chunks`,
`mem_chunks`, `fs_chunks`, `fs_chunks_up`, `fs_chunks_down`. -/
def decodeStorageLayerChunksFields (fields : List (String × Json))
    (cur : StorageLayerChunks) : StorageLayerChunks × Option String :=
  (cur, none)
  |> decodeField fields "total_chunks" decodeUIntField
      (fun c => c.TotalChunks) (fun c v => { c with TotalChunks := v })
  |> decodeField fields "mem_chunks" decodeUIntField
      (fun c => c.MemChunks) (fun c v => { c with MemChunks := v })
  |> decodeField fields "fs_chunks" decodeUIntField
      (fun c => c.FsChunks) (fun c v => { c with FsChunks := v })
  |> decodeField fields "fs_chunks_up" decodeUIntField
      (fun c => c.FsChunksUp) (fun c v => { c with FsChunksUp := v })
  |> decodeField fields "fs_chunks_down" decodeUIntField
      (fun c => c.FsChunksDown) (fun c v => { c with FsChunksDown := v })

/-- Field decoding for the storage-layer struct, tag `chunks`. -/
def decodeStorageMetricsLayerFields (fields : List (String × Json))
    (cur : StorageMetricsLayer) : StorageMetricsLayer × Option String :=
  (cur, none)
  |> decodeField fields "chunks" (decodeNested decodeStorageLayerChunksFields)
      (fun c => c.Chunks) (fun c v => { c with Chunks := v })

/-- Field decoding for `StorageMetrics`, tags `storage_layer`,
`input_chunks`. -/
def decodeStorageMetricsFields (fields : List (String × Json)) (cur : StorageMetrics) :
    StorageMetrics × Option String :=
  (cur, none)
  |> decodeField fields "storage_layer" (decodeNested decodeStorageMetricsLayerFields)
      (fun c => c.StorageLayer) (fun c v => { c with StorageLayer := v })
  |> decodeField fields "input_chunks"
      (decodeMapField (decodeNested decodePluginStorageFields) {})
      (fun c => c.InputChunks) (fun c v => { c with InputChunks := v })

/-- The client: the HTTP transport and base URL are abstracted as the outcome
of request construction and the per-attempt outcomes. -/
structure Client where
  newRequestFails : Bool
  attempts : Nat → AttemptResult

/-- `(*Client).fetchJSON` (src/client.go lines 110-142): request
construction, the polling loop, status check, then body decoding into the
target.  Returns the (pointer) target value together with the error. -/
def Client.fetchJSON {α : Type} (c : Client) (ctxDeadline : Nat) (endpoint : String)
    (decode : Option Json → α → α × Option String) (init : α) :
    α × Option FetchError :=
  if c.newRequestFails then (init, some .requestConstructionFailed)
  else
    match (fetchLoop c.attempts (ctxDeadline / DefaultHTTPRetryBackoff) 0).2 with
    | none => (init, some (.timeout endpoint))
    | some r =>
        if 400 ≤ r.statusCode then (init, some (.requestFailed r.statusCode))
        else
          match decode r.body init with
          | (v, some cause) => (v, some (.decodeFailed cause))
          | (v, none) => (v, none)

/-- `(*Client).BuildInfo` (src/client.go lines 88-91). -/
def Client.BuildInfo (c : Client) (ctxDeadline : Nat) : BuildInfo × Option FetchError :=
  c.fetchJSON ctxDeadline "/" (decodeStruct decodeBuildInfoFields) {}

/-- `(*Client).UpTime` (src/client.go lines 93-96). -/
def Client.UpTime (c : Client) (ctxDeadline : Nat) : UpTime × Option FetchError :=
  c.fetchJSON ctxDeadline "/api/v1/uptime" (decodeStruct decodeUpTimeFields) {}

/-- `(*Client).Metrics` (src/client.go lines 98-101). -/
def Client.Metrics (c : Client) (ctxDeadline : Nat) : Metrics × Option FetchError :=
  c.fetchJSON ctxDeadline "/api/v1/metrics" (decodeStruct decodeMetricsFields) {}

/-- `(*Client).StorageMetrics` (src/client.go lines 103-108):
`context.WithTimeout(ctx, DefaultHTTPRetryTimeout)` tightens the remaining
caller deadline to at most 3 seconds. -/
def Client.StorageMetrics (c : Client) (ctxDeadline : Nat) :
    StorageMetrics × Option FetchError :=
  c.fetchJSON (min ctxDeadline DefaultHTTPRetryTimeout) "/api/v1/storage"
    (decodeStruct decodeStorageMetricsFields) {}

/-- If the first `N` attempts starting at index `k` are not final and attempt
`k + N` is final, the loop stops there with its response, having issued
`N + 1` requests, provided at least `N + 1` ticks remain. -/
theorem fetchLoop_stops_at_first_final (attempts : Nat → AttemptResult) :
    ∀ (N fuel k : Nat), (∀ i, i < N → isFinal (attempts (k + i)) = false) →
    isFinal (attempts (k + N)) = true → N < fuel →
    fetchLoop attempts fuel k = (N + 1, finalResponse (attempts (k + N))) := by
  intro N
  induction N with
  | zero =>
    intro fuel k _ hfin hlt
    obtain ⟨fuel, rfl⟩ : ∃ m, fuel = m + 1 := ⟨fuel - 1, by omega⟩
    simp only [Nat.add_zero] at hfin
    simp [fetchLoop, hfin]
  | succ n ih =>
    intro fuel k hpre hfin hlt
    obtain ⟨fuel, rfl⟩ : ∃ m, fuel = m + 1 := ⟨fuel - 1, by omega⟩
    have h0 : isFinal (attempts k) = false := by simpa using hpre 0 (Nat.succ_pos n)
    rw [show k + (n + 1) = k + 1 + n from by omega] at hfin ⊢
    have hrec := ih fuel (k + 1)
      (fun i hi => by
        have h := hpre (i + 1) (by omega)
        rwa [show k + (i + 1) = k + 1 + i from by omega] at h)
      hfin (by omega)
    simp [fetchLoop, h0, hrec]

/-- If no attempt within the tick budget is final, the loop consumes all its
ticks and the context deadline fires: `fuel` requests were issued and no
final response was obtained. -/
theorem fetchLoop_deadline (attempts : Nat → AttemptResult) :
    ∀ (fuel k : Nat), (∀ i, i < fuel → isFinal (attempts (k + i)) = false) →
    fetchLoop attempts fuel k = (fuel, none) := by
  intro fuel
  induction fuel with
  | zero => intro k _; rfl
  | succ n ih =>
    intro k h
    have h0 : isFinal (attempts k) = false := by simpa using h 0 (Nat.succ_pos n)
    have hrec := ih (k + 1) (fun i hi => by
      have hh := h (i + 1) (by omega)
      rwa [show k + (i + 1) = k + 1 + i from by omega] at hh)
    simp [fetchLoop, h0, hrec]

/-- A successful fetch: attempts before `N` are not final, attempt `N` is a
response with a non-404, non-error status whose body decodes cleanly, and
tick `N + 1` fires before the deadline; the call returns the decoded value
and no error. -/
theorem fetchJSON_first_final_ok {α : Type}
    (attempts : Nat → AttemptResult) (N ctxDeadline : Nat) (endpoint : String)
    (decode : Option Json → α → α × Option String) (init v : α) (r : HttpResponse)
    (hpre : ∀ i, i < N → isFinal (attempts i) = false)
    (hN : attempts N = .resp r) (hst : r.statusCode < 400) (h404 : r.statusCode ≠ 404)
    (hdec : decode r.body init = (v, none))
    (hfit : N < ctxDeadline / DefaultHTTPRetryBackoff) :
    Client.fetchJSON ⟨false, attempts⟩ ctxDeadline endpoint decode init = (v, none) := by
  have hfin : isFinal (attempts N) = true := by
    simp [hN, isFinal, h404]
  have hl := fetchLoop_stops_at_first_final attempts N (ctxDeadline / DefaultHTTPRetryBackoff) 0
    (fun i hi => by simpa using hpre i hi) (by simpa using hfin) hfit
  simp only [Nat.zero_add] at hl
  simp [Client.fetchJSON, hl, hN, finalResponse, Nat.not_le.mpr hst, hdec]

/-- Claim C2: if the deadline fires before any final (non-404,
non-transport-error) response has been received, `fetchJSON` fails with the
Timeout error carrying the endpoint path, and with no other error kind. -/
theorem fetchJSON_timeout_before_final {α : Type}
    (attempts : Nat → AttemptResult) (ctxDeadline : Nat) (endpoint : String)
    (decode : Option Json → α → α × Option String) (init : α)
    (h : ∀ i, i < ctxDeadline / DefaultHTTPRetryBackoff → isFinal (attempts i) = false) :
    Client.fetchJSON ⟨false, attempts⟩ ctxDeadline endpoint decode init =
      (init, some (.timeout endpoint)) := by
  have hl := fetchLoop_deadline attempts (ctxDeadline / DefaultHTTPRetryBackoff) 0
    (fun i hi => by simpa using h i hi)
  simp [Client.fetchJSON, hl]

/-- Witness for C2 at a concrete input: every attempt is a transport error
and the 300 ms deadline admits two ticks. -/
theorem fetchJSON_timeout_before_final_witness :
    Client.fetchJSON ⟨false, fun _ => .transportError⟩ 300 "/api/v1/uptime"
      (decodeStruct decodeUpTimeFields) {} =
      (({} : UpTime), some (.timeout "/api/v1/uptime")) :=
  fetchJSON_timeout_before_final (fun _ => .transportError) 300 "/api/v1/uptime"
    (decodeStruct decodeUpTimeFields) {} (fun _ _ => rfl)

/-- Claim C1: for each of the four operations, if the first `N` attempts
receive HTTP 404 responses and attempt `N` receives an HTTP 200 response
whose body decodes as the target shape, the call returns the decoded value
with no error. -/
theorem operations_first_non404_success
    (attempts : Nat → AttemptResult) (N ctxDeadline : Nat) (body : Option Json)
    (hpre : ∀ i, i < N → ∃ b, attempts i = .resp ⟨404, b⟩)
    (hN : attempts N = .resp ⟨200, body⟩) :
    (∀ v, N < ctxDeadline / DefaultHTTPRetryBackoff →
      decodeStruct decodeBuildInfoFields body {} = (v, none) →
      Client.BuildInfo ⟨false, attempts⟩ ctxDeadline = (v, none)) ∧
    (∀ v, N < ctxDeadline / DefaultHTTPRetryBackoff →
      decodeStruct decodeUpTimeFields body {} = (v, none) →
      Client.UpTime ⟨false, attempts⟩ ctxDeadline = (v, none)) ∧
    (∀ v, N < ctxDeadline / DefaultHTTPRetryBackoff →
      decodeStruct decodeMetricsFields body {} = (v, none) →
      Client.Metrics ⟨false, attempts⟩ ctxDeadline = (v, none)) ∧
    (∀ v, N < min ctxDeadline DefaultHTTPRetryTimeout / DefaultHTTPRetryBackoff →
      decodeStruct decodeStorageMetricsFields body {} = (v, none) →
      Client.StorageMetrics ⟨false, attempts⟩ ctxDeadline = (v, none)) := by
  have hpre' : ∀ i, i < N → isFinal (attempts i) = false := fun i hi => by
    obtain ⟨b, hb⟩ := hpre i hi
    simp [hb, isFinal]
  exact ⟨fun v hfit hdec => fetchJSON_first_final_ok attempts N ctxDeadline "/"
      (decodeStruct decodeBuildInfoFields) {} v ⟨200, body⟩ hpre' hN (by norm_num) (by norm_num) hdec hfit,
    fun v hfit hdec => fetchJSON_first_final_ok attempts N ctxDeadline "/api/v1/uptime"
      (decodeStruct decodeUpTimeFields) {} v ⟨200, body⟩ hpre' hN (by norm_num) (by norm_num) hdec hfit,
    fun v hfit hdec => fetchJSON_first_final_ok attempts N ctxDeadline "/api/v1/metrics"
      (decodeStruct decodeMetricsFields) {} v ⟨200, body⟩ hpre' hN (by norm_num) (by norm_num) hdec hfit,
    fun v hfit hdec => fetchJSON_first_final_ok attempts N
      (min ctxDeadline DefaultHTTPRetryTimeout) "/api/v1/storage"
      (decodeStruct decodeStorageMetricsFields) {} v ⟨200, body⟩ hpre' hN (by norm_num) (by norm_num) hdec hfit⟩

/-- Witness for C1 at a concrete input: one 404 attempt, then an HTTP 200
response with the empty JSON object, under a 3000 ms deadline. -/
theorem operations_first_non404_success_witness :
    Client.UpTime
      ⟨false, fun k => if k = 0 then .resp ⟨404, none⟩ else .resp ⟨200, some (.obj [])⟩⟩
      3000 = (({} : UpTime), none) :=
  (operations_first_non404_success
      (fun k => if k = 0 then .resp ⟨404, none⟩ else .resp ⟨200, some (.obj [])⟩)
      1 3000 (some (.obj []))
      (fun i hi => by
        have h0 : i = 0 := by omega
        subst h0
        exact ⟨none, rfl⟩)
      rfl).2.1 {} (by decide) rfl

/-- Claim C9: an `UpTime` call whose final response is HTTP 200 with body
consisting of the fields `uptime_sec: 5` and `uptime_hr: "5s"` returns the
value with `UpTimeSec = 5` and `UpTimeHr = "5s"` and no error. -/
theorem upTime_end_to_end (attempts : Nat → AttemptResult) (N ctxDeadline : Nat)
    (hpre : ∀ i, i < N → isFinal (attempts i) = false)
    (hN : attempts N =
      .resp ⟨200, some (.obj [("uptime_sec", .num 5), ("uptime_hr", .str "5s")])⟩)
    (hfit : N < ctxDeadline / DefaultHTTPRetryBackoff) :
    Client.UpTime ⟨false, attempts⟩ ctxDeadline = (⟨5, "5s"⟩, none) :=
  fetchJSON_first_final_ok attempts N ctxDeadline "/api/v1/uptime"
    (decodeStruct decodeUpTimeFields) {} ⟨5, "5s"⟩
    ⟨200, some (.obj [("uptime_sec", .num 5), ("uptime_hr", .str "5s")])⟩
    hpre hN (by decide) (by decide) rfl hfit

/-- Witness for C9 at a concrete input: the first attempt already receives
the HTTP 200 uptime body, under a 3000 ms deadline. -/
theorem upTime_end_to_end_witness :
    Client.UpTime
      ⟨false, fun _ =>
        .resp ⟨200, some (.obj [("uptime_sec", .num 5), ("uptime_hr", .str "5s")])⟩⟩
      3000 = (⟨5, "5s"⟩, none) :=
  upTime_end_to_end
    (fun _ => .resp ⟨200, some (.obj [("uptime_sec", .num 5), ("uptime_hr", .str "5s")])⟩)
    0 3000 (fun i hi => absurd hi (Nat.not_lt_zero i)) rfl (by decide)

/-- Claim C3: the first response whose status is not 404 and is at least 400
ends the call on that attempt with `RequestFailed` carrying that status;
exactly `N + 1` requests are issued (no further requests, no waiting for
the deadline, and the outcome does not depend on attempts after `N`). -/
theorem fetchJSON_requestFailed_first_non404 {α : Type}
    (attempts : Nat → AttemptResult) (N ctxDeadline : Nat) (endpoint : String)
    (decode : Option Json → α → α × Option String) (init : α) (r : HttpResponse)
    (hpre : ∀ i, i < N → isFinal (attempts i) = false)
    (hN : attempts N = .resp r) (h404 : r.statusCode ≠ 404) (hbad : 400 ≤ r.statusCode)
    (hfit : N < ctxDeadline / DefaultHTTPRetryBackoff) :
    Client.fetchJSON ⟨false, attempts⟩ ctxDeadline endpoint decode init =
      (init, some (.requestFailed r.statusCode)) ∧
    (fetchLoop attempts (ctxDeadline / DefaultHTTPRetryBackoff) 0).1 = N + 1 := by
  have hfin : isFinal (attempts N) = true := by
    simp [hN, isFinal, h404]
  have hl := fetchLoop_stops_at_first_final attempts N (ctxDeadline / DefaultHTTPRetryBackoff) 0
    (fun i hi => by simpa using hpre i hi) (by simpa using hfin) hfit
  simp only [Nat.zero_add] at hl
  constructor
  · simp [Client.fetchJSON, hl, hN, finalResponse, hbad]
  · simp [hl]

/-- Witness for C3 at a concrete input: the first attempt receives HTTP 500
under a 3000 ms deadline; the call fails with RequestFailed 500 after one
request. -/
theorem fetchJSON_requestFailed_first_non404_witness :
    Client.fetchJSON ⟨false, fun _ => .resp ⟨500, none⟩⟩ 3000 "/api/v1/metrics"
      (decodeStruct decodeMetricsFields) {} =
      (({} : Metrics), some (.requestFailed 500)) ∧
    (fetchLoop (fun _ => .resp ⟨500, none⟩) (3000 / DefaultHTTPRetryBackoff) 0).1 = 0 + 1 :=
  fetchJSON_requestFailed_first_non404 (fun _ => .resp ⟨500, none⟩) 0 3000
    "/api/v1/metrics" (decodeStruct decodeMetricsFields) {} ⟨500, none⟩
    (fun i hi => absurd hi (Nat.not_lt_zero i)) rfl (by decide) (by decide) (by decide)

/-- Claim C4: a final response with success status (< 400) whose body fails
to decode ends the call with `DecodeFailed` carrying the parse error;
exactly `N + 1` requests are issued, so decode failure is terminal and
never retried. -/
theorem fetchJSON_decodeFailed_terminal {α : Type}
    (attempts : Nat → AttemptResult) (N ctxDeadline : Nat) (endpoint : String)
    (decode : Option Json → α → α × Option String) (init v : α) (cause : String)
    (r : HttpResponse)
    (hpre : ∀ i, i < N → isFinal (attempts i) = false)
    (hN : attempts N = .resp r) (h404 : r.statusCode ≠ 404) (hok : r.statusCode < 400)
    (hdec : decode r.body init = (v, some cause))
    (hfit : N < ctxDeadline / DefaultHTTPRetryBackoff) :
    Client.fetchJSON ⟨false, attempts⟩ ctxDeadline endpoint decode init =
      (v, some (.decodeFailed cause)) ∧
    (fetchLoop attempts (ctxDeadline / DefaultHTTPRetryBackoff) 0).1 = N + 1 := by
  have hfin : isFinal (attempts N) = true := by
    simp [hN, isFinal, h404]
  have hl := fetchLoop_stops_at_first_final attempts N (ctxDeadline / DefaultHTTPRetryBackoff) 0
    (fun i hi => by simpa using hpre i hi) (by simpa using hfin) hfit
  simp only [Nat.zero_add] at hl
  constructor
  · simp [Client.fetchJSON, hl, hN, finalResponse, Nat.not_le.mpr hok, hdec]
  · simp [hl]

/-- Witness for C4 at a concrete input: the first attempt receives HTTP 200
with a body that is not valid JSON; the call fails with DecodeFailed after
one request. -/
theorem fetchJSON_decodeFailed_terminal_witness :
    Client.fetchJSON ⟨false, fun _ => .resp ⟨200, none⟩⟩ 3000 "/api/v1/uptime"
      (decodeStruct decodeUpTimeFields) {} =
      (({} : UpTime), some (.decodeFailed "invalid JSON input")) ∧
    (fetchLoop (fun _ => .resp ⟨200, none⟩) (3000 / DefaultHTTPRetryBackoff) 0).1 = 0 + 1 :=
  fetchJSON_decodeFailed_terminal (fun _ => .resp ⟨200, none⟩) 0 3000
    "/api/v1/uptime" (decodeStruct decodeUpTimeFields) {} {} "invalid JSON input"
    ⟨200, none⟩ (fun i hi => absurd hi (Nat.not_lt_zero i)) rfl (by decide) (by decide)
    rfl (by decide)

/-- Replace every transport-level attempt error by an HTTP 404 response. -/
def mask404 (attempts : Nat → AttemptResult) : Nat → AttemptResult :=
  fun k =>
    match attempts k with
    | .transportError => .resp ⟨404, none⟩
    | a => a

/-- The loop cannot tell a transport error from a 404 response. -/
theorem fetchLoop_mask404 (attempts : Nat → AttemptResult) :
    ∀ (fuel k : Nat), fetchLoop (mask404 attempts) fuel k = fetchLoop attempts fuel k := by
  intro fuel
  induction fuel with
  | zero => intro k; rfl
  | succ n ih =>
    intro k
    cases ha : attempts k with
    | transportError =>
      have hm : mask404 attempts k = .resp ⟨404, none⟩ := by simp [mask404, ha]
      simp [fetchLoop, hm, ha, isFinal, ih]
    | resp r =>
      have hm : mask404 attempts k = .resp r := by simp [mask404, ha]
      simp [fetchLoop, hm, ha, ih]

/-- Claim C5: a request attempt ending in a transport-level error is treated
exactly like a 404 response — the whole call is unchanged when every
transport error is replaced by a 404 response, so the transport error is
retried at the next tick and never surfaces (the error type has no
transport case; only a later final response, `RequestFailed`,
`DecodeFailed`, or the deadline `Timeout` can end the call). -/
theorem fetchJSON_transport_as_404 {α : Type}
    (attempts : Nat → AttemptResult) (ctxDeadline : Nat) (endpoint : String)
    (decode : Option Json → α → α × Option String) (init : α) :
    Client.fetchJSON ⟨false, attempts⟩ ctxDeadline endpoint decode init =
      Client.fetchJSON ⟨false, mask404 attempts⟩ ctxDeadline endpoint decode init := by
  simp [Client.fetchJSON, fetchLoop_mask404]

/-- Claim C7: when every attempt receives HTTP 404, the call fails with
Timeout once the deadline elapses, having issued exactly
`ctxDeadline / DefaultHTTPRetryBackoff` requests — no fewer than
floor(deadline / interval) attempts — with the polling interval the fixed
constant 150 ms. -/
theorem fetchJSON_all404_timeout {α : Type}
    (attempts : Nat → AttemptResult) (ctxDeadline : Nat) (endpoint : String)
    (decode : Option Json → α → α × Option String) (init : α)
    (h : ∀ k, ∃ b, attempts k = .resp ⟨404, b⟩) :
    Client.fetchJSON ⟨false, attempts⟩ ctxDeadline endpoint decode init =
      (init, some (.timeout endpoint)) ∧
    (fetchLoop attempts (ctxDeadline / DefaultHTTPRetryBackoff) 0).1 =
      ctxDeadline / DefaultHTTPRetryBackoff ∧
    DefaultHTTPRetryBackoff = 150 := by
  have hnf : ∀ i, i < ctxDeadline / DefaultHTTPRetryBackoff → isFinal (attempts i) = false := by
    intro i _
    obtain ⟨b, hb⟩ := h i
    simp [hb, isFinal]
  have hl := fetchLoop_deadline attempts (ctxDeadline / DefaultHTTPRetryBackoff) 0
    (fun i hi => by simpa using hnf i hi)
  exact ⟨by simp [Client.fetchJSON, hl], by simp [hl], rfl⟩

/-- Witness for C7 at a concrete input: continuous 404 under a 1000 ms
deadline; the call times out after exactly 6 = floor(1000 / 150) requests. -/
theorem fetchJSON_all404_timeout_witness :
    Client.fetchJSON ⟨false, fun _ => .resp ⟨404, none⟩⟩ 1000 "/"
      (decodeStruct decodeBuildInfoFields) {} =
      (({} : BuildInfo), some (.timeout "/")) ∧
    (fetchLoop (fun _ => .resp ⟨404, none⟩) (1000 / DefaultHTTPRetryBackoff) 0).1 =
      1000 / DefaultHTTPRetryBackoff ∧
    DefaultHTTPRetryBackoff = 150 :=
  fetchJSON_all404_timeout (fun _ => .resp ⟨404, none⟩) 1000 "/"
    (decodeStruct decodeBuildInfoFields) {} (fun _ => ⟨none, rfl⟩)

/-- Claim C8: `StorageMetrics` runs its fetch under the tighter of the
caller deadline and `DefaultHTTPRetryTimeout` (3 seconds), while
`BuildInfo`, `UpTime` and `Metrics` run under exactly the caller
deadline. -/
theorem operations_deadline_policy (rf : Bool) (attempts : Nat → AttemptResult)
    (ctxDeadline : Nat) :
    Client.StorageMetrics ⟨rf, attempts⟩ ctxDeadline =
      Client.fetchJSON ⟨rf, attempts⟩ (min ctxDeadline DefaultHTTPRetryTimeout)
        "/api/v1/storage" (decodeStruct decodeStorageMetricsFields) {} ∧
    Client.BuildInfo ⟨rf, attempts⟩ ctxDeadline =
      Client.fetchJSON ⟨rf, attempts⟩ ctxDeadline "/"
        (decodeStruct decodeBuildInfoFields) {} ∧
    Client.UpTime ⟨rf, attempts⟩ ctxDeadline =
      Client.fetchJSON ⟨rf, attempts⟩ ctxDeadline "/api/v1/uptime"
        (decodeStruct decodeUpTimeFields) {} ∧
    Client.Metrics ⟨rf, attempts⟩ ctxDeadline =
      Client.fetchJSON ⟨rf, attempts⟩ ctxDeadline "/api/v1/metrics"
        (decodeStruct decodeMetricsFields) {} ∧
    DefaultHTTPRetryTimeout = 3000 :=
  ⟨rfl, rfl, rfl, rfl, rfl⟩

/-- On every error path other than decode failure, `fetchJSON` leaves the
target value untouched. -/
theorem fetchJSON_init_on_nondecode {α : Type} (c : Client) (ctxDeadline : Nat)
    (endpoint : String) (decode : Option Json → α → α × Option String)
    (init v : α) (e : FetchError)
    (heq : c.fetchJSON ctxDeadline endpoint decode init = (v, some e))
    (hnd : ∀ cause, e ≠ .decodeFailed cause) : v = init := by
  unfold Client.fetchJSON at heq
  by_cases hrf : c.newRequestFails
  · simp only [hrf, if_true] at heq
    exact (Prod.mk.injEq .. ▸ heq).1.symm ▸ rfl
  · simp only [hrf, if_false] at heq
    cases hl : (fetchLoop c.attempts (ctxDeadline / DefaultHTTPRetryBackoff) 0).2 with
    | none =>
      rw [hl] at heq
      exact congrArg Prod.fst heq |>.symm
    | some r =>
      rw [hl] at heq
      by_cases hst : 400 ≤ r.statusCode
      · simp only [hst, if_true] at heq
        exact congrArg Prod.fst heq |>.symm
      · simp only [hst, if_false] at heq
        cases hd : decode r.body init with
        | mk w oc =>
          rw [hd] at heq
          cases oc with
          | none => simp at heq
          | some cause =>
            simp only at heq
            have he : e = .decodeFailed cause := by
              have := congrArg Prod.snd heq
              simpa using this.symm
            exact absurd he (hnd cause)

/-- Claim C10: for each of the four operations, a call returning a non-nil
error other than a decode failure (request construction failure, Timeout,
or RequestFailed) returns the zero value of its result type. -/
theorem operations_zero_on_nondecode_error (rf : Bool) (attempts : Nat → AttemptResult)
    (ctxDeadline : Nat) :
    (∀ v e, Client.BuildInfo ⟨rf, attempts⟩ ctxDeadline = (v, some e) →
      (∀ cause, e ≠ .decodeFailed cause) → v = {}) ∧
    (∀ v e, Client.UpTime ⟨rf, attempts⟩ ctxDeadline = (v, some e) →
      (∀ cause, e ≠ .decodeFailed cause) → v = {}) ∧
    (∀ v e, Client.Metrics ⟨rf, attempts⟩ ctxDeadline = (v, some e) →
      (∀ cause, e ≠ .decodeFailed cause) → v = {}) ∧
    (∀ v e, Client.StorageMetrics ⟨rf, attempts⟩ ctxDeadline = (v, some e) →
      (∀ cause, e ≠ .decodeFailed cause) → v = {}) :=
  ⟨fun _ e heq hnd => fetchJSON_init_on_nondecode _ _ _ _ _ _ e heq hnd,
   fun _ e heq hnd => fetchJSON_init_on_nondecode _ _ _ _ _ _ e heq hnd,
   fun _ e heq hnd => fetchJSON_init_on_nondecode _ _ _ _ _ _ e heq hnd,
   fun _ e heq hnd => fetchJSON_init_on_nondecode _ _ _ _ _ _ e heq hnd⟩

/-- Witness for C10 at a concrete input: request construction fails, so
`BuildInfo` returns the zero value alongside the error. -/
theorem operations_zero_on_nondecode_error_witness :
    (Client.BuildInfo ⟨true, fun _ => .transportError⟩ 0).1 = ({} : BuildInfo) :=
  (operations_zero_on_nondecode_error true (fun _ => .transportError) 0).1
    {} .requestConstructionFailed rfl (fun _ h => FetchError.noConfusion h)

end Fluentbit
